import Mathlib

/-!
Verification of the CAN identifier model (`embedded-can/src/id.rs`) and the
SPI shared-bus error/delay helpers (`embedded-hal-bus/src/spi/mod.rs`) of the
embedded-hal repository, shallowly embedded in Lean.

Machine integers (`u16`, `u32`) are modelled as `Nat`; where a claim is about
"every 16-bit value" the width bound appears as an explicit hypothesis, and
the one truncating cast in the source (`as u16` in `ExtendedId::standard_id`)
is embedded as `% 2 ^ 16`.
-/

namespace EmbeddedCan

/-- `StandardId(u16)`: standard 11-bit CAN identifier, valid range `0..=0x7FF`. -/
structure StandardId where
  raw : Nat
deriving DecidableEq

/-- `StandardId::ZERO`. -/
def StandardId.ZERO : StandardId := ⟨0⟩

/-- `StandardId::MAX`. -/
def StandardId.MAX : StandardId := ⟨0x7FF⟩

/-- `StandardId::new`: `if raw <= 0x7FF { Some(Self(raw)) } else { None }`. -/
def StandardId.new (raw : Nat) : Option StandardId :=
  if raw ≤ 0x7FF then some ⟨raw⟩ else none

/-- `StandardId::new_unchecked`: stores the argument with no check. -/
def StandardId.new_unchecked (raw : Nat) : StandardId := ⟨raw⟩

/-- `StandardId::as_raw`. -/
def StandardId.as_raw (s : StandardId) : Nat := s.raw

/-- The derived `Ord` on `StandardId` compares the single `u16` field. -/
def StandardId.cmp (a b : StandardId) : Ordering := compare a.raw b.raw

/-- `a < b` on `StandardId` (from the derived `Ord`). -/
def StandardId.lt (a b : StandardId) : Prop := a.cmp b = .lt

instance (a b : StandardId) : Decidable (a.lt b) :=
  inferInstanceAs (Decidable (_ = _))

/-- `ExtendedId(u32)`: extended 29-bit CAN identifier, valid range `0..=0x1FFF_FFFF`. -/
structure ExtendedId where
  raw : Nat
deriving DecidableEq

/-- `ExtendedId::ZERO`. -/
def ExtendedId.ZERO : ExtendedId := ⟨0⟩

/-- `ExtendedId::MAX`. -/
def ExtendedId.MAX : ExtendedId := ⟨0x1FFFFFFF⟩

/-- `ExtendedId::new`: `if raw <= 0x1FFF_FFFF { Some(Self(raw)) } else { None }`. -/
def ExtendedId.new (raw : Nat) : Option ExtendedId :=
  if raw ≤ 0x1FFFFFFF then some ⟨raw⟩ else none

/-- `ExtendedId::new_unchecked`: stores the argument with no check. -/
def ExtendedId.new_unchecked (raw : Nat) : ExtendedId := ⟨raw⟩

/-- `ExtendedId::as_raw`. -/
def ExtendedId.as_raw (e : ExtendedId) : Nat := e.raw

/-- `ExtendedId::standard_id`: `StandardId((self.0 >> 18) as u16)`.
The `as u16` cast is the truncation `% 2 ^ 16`. -/
def ExtendedId.standard_id (e : ExtendedId) : StandardId :=
  ⟨(e.raw >>> 18) % 2 ^ 16⟩

/-- `Id`: tagged union of standard and extended identifiers. -/
inductive Id where
  | Standard (id : StandardId)
  | Extended (id : ExtendedId)
deriving DecidableEq

/-- The derived `PartialEq` on `Id`: same variant and same raw field. -/
def Id.beq : Id → Id → Bool
  | .Standard a, .Standard b => a.raw == b.raw
  | .Extended a, .Extended b => a.raw == b.raw
  | _, _ => false

/-- Lexicographic comparison of 3-tuples, as Rust's derived `Ord` on
`(u16, i32, u32)` computes it. -/
def lexCmp3 (a b : Nat × Nat × Nat) : Ordering :=
  (compare a.1 b.1).then ((compare a.2.1 b.2.1).then (compare a.2.2 b.2.2))

/-- The `split_id` closure inside `impl Ord for Id`:
standard `x` ↦ `(x, 0, 0)`; extended `x` ↦
`(x.standard_id().0, 1, x.0 & ((1 << 18) - 1))`. -/
def split_id : Id → Nat × Nat × Nat
  | .Standard s => (s.raw, 0, 0)
  | .Extended e => (e.standard_id.raw, 1, e.raw &&& (1 <<< 18 - 1))

/-- `impl Ord for Id`: compare the split tuples. -/
def Id.cmp (a b : Id) : Ordering := lexCmp3 (split_id a) (split_id b)

/-- `impl PartialOrd for Id`: `Some(self.cmp(other))`. -/
def Id.cmpPartial (a b : Id) : Option Ordering := some (Id.cmp a b)

/-- `a < b` in the arbitration order. -/
def Id.lt (a b : Id) : Prop := Id.cmp a b = .lt

instance (a b : Id) : Decidable (a.lt b) :=
  inferInstanceAs (Decidable (_ = _))

/-- An `Id` is valid when its raw value is within the documented bit-width
(11 bits standard, 29 bits extended). -/
def Id.valid : Id → Prop
  | .Standard s => s.raw ≤ 0x7FF
  | .Extended e => e.raw ≤ 0x1FFFFFFF

instance (a : Id) : Decidable a.valid := by
  cases a <;> exact inferInstanceAs (Decidable (_ ≤ _))

/-- The raw field fits the Rust carrier type (`u16` / `u32`); guaranteed by
the machine-integer types in the source. -/
def Id.inWidth : Id → Prop
  | .Standard s => s.raw < 2 ^ 16
  | .Extended e => e.raw < 2 ^ 32

instance (a : Id) : Decidable a.inWidth := by
  cases a <;> exact inferInstanceAs (Decidable (_ < _))

/-- The 3-tuple in the spec's words: a standard `Id` with value `x` maps to
`(x, 0, 0)`; an extended `Id` with value `y` maps to
(bits 28..18 of `y`, 1, bits 17..0 of `y`). -/
def specArbitrationTuple : Id → Nat × Nat × Nat
  | .Standard s => (s.raw, 0, 0)
  | .Extended e => ((e.raw >>> 18) % 2 ^ 11, 1, e.raw % 2 ^ 18)

end EmbeddedCan

namespace EmbeddedHalBus

/-- Modelled from the spec: the error-kind taxonomy (`embedded_hal::spi::ErrorKind`)
lives outside this repository; the spec only requires a small fixed taxonomy with
a dedicated chip-select-fault kind distinct from ordinary bus faults. -/
inductive ErrorKind where
  | Overrun
  | ModeFault
  | FrameFormat
  | ChipSelectFault
  | Other
deriving DecidableEq

/-- `DeviceError<BUS, CS>`: `Spi(BUS)` wraps an inner bus-operation failure,
`Cs(CS)` wraps a chip-select line failure. -/
inductive DeviceError (BUS CS : Type) where
  | Spi (e : BUS)
  | Cs (e : CS)

/-- `impl Error for DeviceError::kind`, with the wrapped bus error's own
`kind` passed explicitly (it is the `Error` trait method of `BUS`):
`Spi(e) => e.kind()`, `Cs(_) => ErrorKind::ChipSelectFault`. -/
def DeviceError.kind {BUS CS : Type} (kindOf : BUS → ErrorKind) :
    DeviceError BUS CS → ErrorKind
  | .Spi e => kindOf e
  | .Cs _ => .ChipSelectFault

/-- Result of a call that may panic: `panicked` models abrupt termination
(`panic!`, message not modelled), `ok` a normal return. There is no
recoverable-error constructor. -/
inductive PanicOr (α : Type) where
  | panicked
  | ok (val : α)
deriving DecidableEq

/-- `NoDelay`: dummy `DelayUs` implementation that panics on use. -/
structure NoDelay where
deriving DecidableEq

/-- `no_delay_panic`: unconditionally panics. -/
def no_delay_panic : PanicOr Unit := .panicked

/-- `impl DelayUs for NoDelay::delay_us`: calls `no_delay_panic()` for any
duration argument. -/
def NoDelay.delay_us (_self : NoDelay) (_us : Nat) : PanicOr Unit :=
  no_delay_panic

end EmbeddedHalBus

namespace EmbeddedCan

/-! ### Arithmetic and comparison helper lemmas -/

theorem and_mask18 (x : Nat) : x &&& (1 <<< 18 - 1) = x % 2 ^ 18 := by
  have h : (1 <<< 18 - 1 : Nat) = 2 ^ 18 - 1 := by decide
  rw [h, Nat.and_pow_two_sub_one_eq_mod]

theorem shiftR_eq_div (x n : Nat) : x >>> n = x / 2 ^ n :=
  Nat.shiftRight_eq_div_pow x n

theorem pow11 : (2 : Nat) ^ 11 = 2048 := by norm_num

theorem pow16 : (2 : Nat) ^ 16 = 65536 := by norm_num

theorem pow18 : (2 : Nat) ^ 18 = 262144 := by norm_num

theorem pow32 : (2 : Nat) ^ 32 = 4294967296 := by norm_num

theorem lexCmp3_eq_lt {a b : Nat × Nat × Nat} :
    lexCmp3 a b = .lt ↔
      a.1 < b.1 ∨ a.1 = b.1 ∧ (a.2.1 < b.2.1 ∨ a.2.1 = b.2.1 ∧ a.2.2 < b.2.2) := by
  simp [lexCmp3, Ordering.then_eq_lt, Nat.compare_eq_lt, Nat.compare_eq_eq]

theorem lexCmp3_eq_eq {a b : Nat × Nat × Nat} :
    lexCmp3 a b = .eq ↔ a.1 = b.1 ∧ a.2.1 = b.2.1 ∧ a.2.2 = b.2.2 := by
  simp [lexCmp3, Ordering.then_eq_eq, Nat.compare_eq_eq, and_assoc]

theorem lexCmp3_eq_gt {a b : Nat × Nat × Nat} :
    lexCmp3 a b = .gt ↔
      b.1 < a.1 ∨ a.1 = b.1 ∧ (b.2.1 < a.2.1 ∨ a.2.1 = b.2.1 ∧ b.2.2 < a.2.2) := by
  simp [lexCmp3, Ordering.then_eq_gt, Nat.compare_eq_gt, Nat.compare_eq_eq]

theorem split_id_standard (s : StandardId) :
    split_id (.Standard s) = (s.raw, 0, 0) := rfl

theorem split_id_extended (e : ExtendedId) :
    split_id (.Extended e) = (e.raw / 2 ^ 18 % 2 ^ 16, 1, e.raw % 2 ^ 18) := by
  have h : e.raw &&& 262143 = e.raw % 262144 := by
    have h2 := Nat.and_pow_two_sub_one_eq_mod e.raw 18
    norm_num at h2
    exact h2
  simp [split_id, ExtendedId.standard_id, shiftR_eq_div, h]

theorem cmp_eq_eq_iff {a b : Id} (ha : a.inWidth) (hb : b.inWidth) :
    Id.cmp a b = .eq ↔ a = b := by
  cases a with
  | Standard s =>
    cases b with
    | Standard t =>
      simp only [Id.cmp, split_id_standard, lexCmp3_eq_eq]
      constructor
      · rintro ⟨h, -, -⟩
        cases s; cases t; simp_all
      · intro h
        cases h
        exact ⟨rfl, trivial, trivial⟩
    | Extended f =>
      simp only [Id.cmp, split_id_standard, split_id_extended, lexCmp3_eq_eq]
      constructor
      · rintro ⟨-, h, -⟩
        omega
      · intro h
        exact Id.noConfusion h
  | Extended e =>
    cases b with
    | Standard t =>
      simp only [Id.cmp, split_id_standard, split_id_extended, lexCmp3_eq_eq]
      constructor
      · rintro ⟨-, h, -⟩
        omega
      · intro h
        exact Id.noConfusion h
    | Extended f =>
      simp only [Id.inWidth, pow32] at ha hb
      simp only [Id.cmp, split_id_extended, lexCmp3_eq_eq, pow16, pow18]
      constructor
      · rintro ⟨h1, -, h3⟩
        have : e.raw = f.raw := by omega
        cases e; cases f; simp_all
      · intro h
        cases h
        exact ⟨rfl, trivial, rfl⟩

theorem cmp_gt_iff_lt (a b : Id) : Id.cmp a b = .gt ↔ Id.cmp b a = .lt := by
  cases a <;> cases b <;>
    simp only [Id.cmp, split_id_standard, split_id_extended, lexCmp3_eq_gt,
      lexCmp3_eq_lt, pow16, pow18, true_and, and_true, lt_self_iff_false,
      false_or, or_false, false_and, and_false] <;>
    omega

/-! ### Claim theorems -/

/-- C1: for every pair of `Id`s (valid per the documented bit-widths),
`Ord::cmp` equals the lexicographic comparison of the spec's 3-tuples
(high 11 bits, discriminator 0/1, low 18 bits). -/
theorem cmp_eq_spec_tuple_cmp (a b : Id) (ha : a.valid) (hb : b.valid) :
    Id.cmp a b = lexCmp3 (specArbitrationTuple a) (specArbitrationTuple b) := by
  have key : ∀ c : Id, c.valid → split_id c = specArbitrationTuple c := by
    intro c hc
    cases c with
    | Standard s => rfl
    | Extended e =>
      simp only [Id.valid] at hc
      rw [split_id_extended]
      simp only [specArbitrationTuple, shiftR_eq_div, pow11, pow16, pow18]
      have h : e.raw / 262144 % 65536 = e.raw / 262144 % 2048 := by omega
      rw [h]
  show lexCmp3 (split_id a) (split_id b) = _
  rw [key a ha, key b hb]

/-- Witness for C1 at a concrete standard/extended pair. -/
theorem cmp_eq_spec_tuple_cmp_witness :
    Id.cmp (Id.Standard ⟨3⟩) (Id.Extended ⟨70000⟩) =
      lexCmp3 (specArbitrationTuple (Id.Standard ⟨3⟩))
        (specArbitrationTuple (Id.Extended ⟨70000⟩)) :=
  cmp_eq_spec_tuple_cmp (Id.Standard ⟨3⟩) (Id.Extended ⟨70000⟩)
    (by decide) (by decide)

/-- C2: a standard id with value `V` compares below every extended id whose
top 11 bits equal `V`; an extended id whose top 11 bits are strictly below `V`
compares below the standard id whatever its low 18 bits; and the four literal
dominance instances from the spec hold. -/
theorem standard_dominance (V y : Nat) (hV : V ≤ 0x7FF) (hy : y ≤ 0x1FFFFFFF) :
    ((y >>> 18 = V → (Id.Standard ⟨V⟩).lt (Id.Extended ⟨y⟩)) ∧
      (y >>> 18 < V → (Id.Extended ⟨y⟩).lt (Id.Standard ⟨V⟩))) ∧
    StandardId.ZERO.lt StandardId.MAX ∧
    (Id.Standard ⟨1⟩).lt (Id.Extended ExtendedId.MAX) ∧
    Id.cmp (Id.Extended ⟨0x7FF <<< 18⟩) (Id.Standard ⟨0x7FF⟩) = .gt ∧
    (Id.Extended ⟨0x3FFFF⟩).lt (Id.Standard ⟨1⟩) := by
  refine ⟨⟨?_, ?_⟩, by decide, by decide, by decide, by decide⟩ <;>
    · intro h
      rw [shiftR_eq_div] at h
      simp only [Id.lt, Id.cmp, split_id_standard, split_id_extended,
        lexCmp3_eq_lt, pow16, pow18, true_and, and_true, lt_self_iff_false,
        false_or, or_false, false_and, and_false]
      omega

/-- Witness for C2 at `V = 5`, `y = 5 <<< 18`. -/
theorem standard_dominance_witness :
    (((5 <<< 18 : Nat) >>> 18 = 5 →
        (Id.Standard ⟨5⟩).lt (Id.Extended ⟨5 <<< 18⟩)) ∧
      ((5 <<< 18 : Nat) >>> 18 < 5 →
        (Id.Extended ⟨5 <<< 18⟩).lt (Id.Standard ⟨5⟩))) ∧
    StandardId.ZERO.lt StandardId.MAX ∧
    (Id.Standard ⟨1⟩).lt (Id.Extended ExtendedId.MAX) ∧
    Id.cmp (Id.Extended ⟨0x7FF <<< 18⟩) (Id.Standard ⟨0x7FF⟩) = .gt ∧
    (Id.Extended ⟨0x3FFFF⟩).lt (Id.Standard ⟨1⟩) :=
  standard_dominance 5 (5 <<< 18) (by decide) (by decide)

/-- C3: the arbitration order is a strict total order: trichotomy (on ids
within the carrier widths), transitivity, and `partial_cmp` never `None`. -/
theorem arbitration_total_order :
    (∀ a b : Id, a.inWidth → b.inWidth →
      (a.lt b ∧ a ≠ b ∧ ¬b.lt a) ∨ (¬a.lt b ∧ a = b ∧ ¬b.lt a) ∨
        (¬a.lt b ∧ a ≠ b ∧ b.lt a)) ∧
    (∀ a b c : Id, a.lt b → b.lt c → a.lt c) ∧
    (∀ a b : Id, Id.cmpPartial a b ≠ none) := by
  refine ⟨?_, ?_, ?_⟩
  · intro a b ha hb
    cases h : Id.cmp a b with
    | lt =>
      refine .inl ⟨h, ?_, ?_⟩
      · intro hab
        rw [(cmp_eq_eq_iff ha hb).2 hab] at h
        exact Ordering.noConfusion h
      · intro hba
        have hgt : Id.cmp a b = .gt := (cmp_gt_iff_lt a b).2 hba
        rw [h] at hgt
        exact Ordering.noConfusion hgt
    | eq =>
      have hab := (cmp_eq_eq_iff ha hb).1 h
      refine .inr (.inl ⟨?_, hab, ?_⟩)
      · intro hlt
        rw [Id.lt, h] at hlt
        exact Ordering.noConfusion hlt
      · intro hba
        have hgt : Id.cmp a b = .gt := (cmp_gt_iff_lt a b).2 hba
        rw [h] at hgt
        exact Ordering.noConfusion hgt
    | gt =>
      refine .inr (.inr ⟨?_, ?_, (cmp_gt_iff_lt a b).1 h⟩)
      · intro hlt
        rw [Id.lt, h] at hlt
        exact Ordering.noConfusion hlt
      · intro hab
        rw [(cmp_eq_eq_iff ha hb).2 hab] at h
        exact Ordering.noConfusion h
  · intro a b c hab hbc
    simp only [Id.lt, Id.cmp, lexCmp3_eq_lt] at hab hbc ⊢
    omega
  · intro a b
    simp [Id.cmpPartial]

/-- Witness for C3: transitivity applied at three concrete ids. -/
theorem arbitration_total_order_witness :
    (Id.Standard ⟨1⟩).lt (Id.Extended ⟨0x1FFFFFFF⟩) :=
  arbitration_total_order.2.1 (Id.Standard ⟨1⟩) (Id.Standard ⟨2⟩)
    (Id.Extended ⟨0x1FFFFFFF⟩) (by decide) (by decide)

/-- C4: within the carrier widths, `StandardId::new` succeeds iff the raw
value is at most `0x7FF`, and `ExtendedId::new` succeeds iff it is at most
`0x1FFF_FFFF`. -/
theorem new_some_iff (r : Nat) :
    (r < 2 ^ 16 → ((StandardId.new r).isSome ↔ r ≤ 0x7FF)) ∧
    (r < 2 ^ 32 → ((ExtendedId.new r).isSome ↔ r ≤ 0x1FFFFFFF)) := by
  refine ⟨fun _ => ?_, fun _ => ?_⟩
  · simp only [StandardId.new]
    split <;> simp_all
  · simp only [ExtendedId.new]
    split <;> simp_all

/-- Witness for C4 at the out-of-range raws `0x800` and `0x2000_0000`. -/
theorem new_some_iff_witness :
    ((StandardId.new 0x800).isSome ↔ (0x800 : Nat) ≤ 0x7FF) ∧
    ((ExtendedId.new 0x20000000).isSome ↔ (0x20000000 : Nat) ≤ 0x1FFFFFFF) :=
  ⟨(new_some_iff 0x800).1 (by decide), (new_some_iff 0x20000000).2 (by decide)⟩

/-- C5: for every in-range raw value, `new` succeeds and `as_raw` reads the
original value back. -/
theorem new_as_raw_round_trip (r : Nat) :
    (r ≤ 0x7FF → ∃ s, StandardId.new r = some s ∧ s.as_raw = r) ∧
    (r ≤ 0x1FFFFFFF → ∃ e, ExtendedId.new r = some e ∧ e.as_raw = r) := by
  refine ⟨fun h => ⟨⟨r⟩, ?_, rfl⟩, fun h => ⟨⟨r⟩, ?_, rfl⟩⟩ <;>
    simp [StandardId.new, ExtendedId.new, h]

/-- Witness for C5 at `r = 5`. -/
theorem new_as_raw_round_trip_witness :
    (∃ s, StandardId.new 5 = some s ∧ s.as_raw = 5) ∧
    (∃ e, ExtendedId.new 5 = some e ∧ e.as_raw = 5) :=
  ⟨(new_as_raw_round_trip 5).1 (by decide), (new_as_raw_round_trip 5).2 (by decide)⟩


/-- C6: for every valid `ExtendedId`, `standard_id()` yields the raw value
shifted right by 18 bits, which is always within the `StandardId` range; and
`ExtendedId::MAX.standard_id()` is the value `StandardId::new` produces at
`ExtendedId::MAX.as_raw() >> 18`. -/
theorem standard_id_extraction :
    (∀ e : ExtendedId, e.raw ≤ 0x1FFFFFFF →
      e.standard_id.as_raw = e.raw >>> 18 ∧ e.standard_id.as_raw ≤ 0x7FF) ∧
    StandardId.new (ExtendedId.MAX.as_raw >>> 18) = some ExtendedId.MAX.standard_id := by
  refine ⟨fun e he => ?_, by decide⟩
  simp only [ExtendedId.standard_id, StandardId.as_raw, shiftR_eq_div, pow16]
  omega

/-- Witness for C6 at the extended id `0x12345678 % 2 ^ 29`. -/
theorem standard_id_extraction_witness :
    (ExtendedId.mk 0x12345678).standard_id.as_raw = (0x12345678 : Nat) >>> 18 ∧
      (ExtendedId.mk 0x12345678).standard_id.as_raw ≤ 0x7FF :=
  standard_id_extraction.1 ⟨0x12345678⟩ (by decide)

/-- C7: equality on `Id` is structural (same variant and raw value, the
derived `PartialEq`), and within the carrier widths it coincides with
`Ord::cmp` returning `Equal`; a standard and an extended id are never equal
and never compare `Equal`. -/
theorem structural_equality_cmp_eq :
    (∀ a b : Id, a.inWidth → b.inWidth →
      ((a.beq b = true ↔ a = b) ∧ (Id.cmp a b = .eq ↔ a = b))) ∧
    (∀ (s : StandardId) (e : ExtendedId),
      (Id.Standard s).beq (Id.Extended e) = false ∧
        Id.cmp (Id.Standard s) (Id.Extended e) ≠ .eq) := by
  constructor
  · intro a b ha hb
    refine ⟨?_, cmp_eq_eq_iff ha hb⟩
    cases a with
    | Standard s =>
      cases b with
      | Standard t => cases s; cases t; simp [Id.beq]
      | Extended f => simp [Id.beq]
    | Extended e =>
      cases b with
      | Standard t => simp [Id.beq]
      | Extended f => cases e; cases f; simp [Id.beq]
  · intro s e
    refine ⟨rfl, ?_⟩
    intro h
    simp only [Id.cmp, split_id_standard, split_id_extended, lexCmp3_eq_eq] at h
    omega

/-- Witness for C7 at two concrete in-width ids. -/
theorem structural_equality_cmp_eq_witness :
    ((Id.Extended ⟨7⟩).beq (Id.Extended ⟨7⟩) = true ↔
        Id.Extended ⟨7⟩ = Id.Extended ⟨7⟩) ∧
    (Id.cmp (Id.Extended ⟨7⟩) (Id.Extended ⟨7⟩) = .eq ↔
        Id.Extended ⟨7⟩ = Id.Extended ⟨7⟩) :=
  structural_equality_cmp_eq.1 (Id.Extended ⟨7⟩) (Id.Extended ⟨7⟩)
    (by decide) (by decide)

/-- C10: the unchecked constructors validate nothing and store the argument
unchanged, for every carrier-width raw value, in or out of the valid id
range. -/
theorem new_unchecked_stores_raw (r : Nat) :
    (r < 2 ^ 16 → (StandardId.new_unchecked r).as_raw = r) ∧
    (r < 2 ^ 32 → (ExtendedId.new_unchecked r).as_raw = r) :=
  ⟨fun _ => rfl, fun _ => rfl⟩

/-- Witness for C10 at raws just above the valid id ranges. -/
theorem new_unchecked_stores_raw_witness :
    (StandardId.new_unchecked 0x800).as_raw = 0x800 ∧
      (ExtendedId.new_unchecked 0x20000000).as_raw = 0x20000000 :=
  ⟨(new_unchecked_stores_raw 0x800).1 (by decide),
    (new_unchecked_stores_raw 0x20000000).2 (by decide)⟩

end EmbeddedCan

namespace EmbeddedHalBus

/-- C8: a chip-select failure is classified as the dedicated
`ChipSelectFault` kind regardless of the wrapped value, and a bus-operation
failure is classified as the wrapped bus error's own kind. -/
theorem device_error_kind_classification :
    ∀ (BUS CS : Type) (kindOf : BUS → ErrorKind) (e : BUS) (c : CS),
      DeviceError.kind kindOf (@DeviceError.Cs BUS CS c) = ErrorKind.ChipSelectFault ∧
      DeviceError.kind kindOf (@DeviceError.Spi BUS CS e) = kindOf e :=
  fun _ _ _ _ _ => ⟨rfl, rfl⟩

/-- C9: `NoDelay::delay_us` panics for every duration argument and never
returns normally. -/
theorem no_delay_always_panics :
    ∀ (d : NoDelay) (us : Nat),
      d.delay_us us = PanicOr.panicked ∧ ∀ u : Unit, d.delay_us us ≠ PanicOr.ok u :=
  fun _ _ => ⟨rfl, fun _ h => PanicOr.noConfusion h⟩

/-- Witness for C9 at a concrete call. -/
theorem no_delay_always_panics_witness :
    NoDelay.delay_us ⟨⟩ 1000 = PanicOr.panicked ∧
      ∀ u : Unit, NoDelay.delay_us ⟨⟩ 1000 ≠ PanicOr.ok u :=
  no_delay_always_panics ⟨⟩ 1000

end EmbeddedHalBus
